import Mathlib

/-!
Shallow embedding of src/mcp-servers/jupyter-notebook-mcp/main.py.

The server keeps an in-process mapping from notebook identifiers to
notebook records (a Python dict, embedded as an association list that
preserves insertion order and uses assignment-overwrite semantics).
External effects are made explicit: the outcome of a spawned child
process is a RunResult argument, the outcome of a file open/write is a
WriteOutcome argument, and the uuid generator is an identifier supplied
by the caller.  File writes performed by a handler are returned as a
(path, content) pair; whether the executor reached its os.unlink call is
returned as the tempDeleted field.
-/

/-- A cell record appended by execute_cell (main.py lines 212-216). -/
structure Cell where
  code : String
  output : String
  execution_count : Nat
deriving Repr, DecidableEq

/-- A notebook record stored by create_notebook (main.py lines 164-168). -/
structure Notebook where
  name : String
  path : String
  cells : List Cell
deriving Repr, DecidableEq

/-- The session store self.notebooks, a dict from id to record. -/
abbrev Store := List (String × Notebook)

/-- Python dict assignment: overwrite the binding if the key is present,
otherwise append the new binding at the end (insertion order). -/
def storeInsert : Store → String → Notebook → Store
  | [], k, v => [(k, v)]
  | (ka, va) :: rest, k, v =>
    if ka = k then (k, v) :: rest else (ka, va) :: storeInsert rest k v

/-- Python dict lookup / membership test. -/
def storeLookup : Store → String → Option Notebook
  | [], _ => none
  | (ka, va) :: rest, k => if ka = k then some va else storeLookup rest k

/-- Input schema entry of a tool (one property of inputSchema.properties). -/
structure SchemaProperty where
  name : String
  type : String
  enum : Option (List String)
  description : String
deriving Repr, DecidableEq

/-- One entry of the static tool catalog (main.py lines 36-107). -/
structure ToolSpec where
  name : String
  description : String
  properties : List SchemaProperty
  required : List String
deriving Repr, DecidableEq

/-- A JSON response object written by the server: either a content
response, an error response, or the tools/list catalog response. -/
inductive Response where
  | content (text : String)
  | error (msg : String)
  | tools (catalog : List ToolSpec)
deriving Repr, DecidableEq

/-- Discriminator: is the response a success content response. -/
def Response.isContent : Response → Bool
  | .content _ => true
  | _ => false

/-- Outcome of subprocess.run on the host: the child ran to completion
with captured stdout, stderr and exit status; or the wall-clock timeout
expired (subprocess.TimeoutExpired); or launching failed with some other
exception. -/
inductive RunResult where
  | completed (stdout : String) (stderr : String) (returncode : Int)
  | timedOut
  | launchFailure (msg : String)
deriving Repr, DecidableEq

/-- Outcome of an open/write of a file on the host file system. -/
inductive WriteOutcome where
  | ok
  | failed (msg : String)
deriving Repr, DecidableEq

/-- Result of one handler invocation: the JSON response, the session
store afterwards, the file written by the handler (path and content) if
any, and, for the sandboxed executor, whether the temporary file was
deleted (whether control reached the os.unlink call). -/
structure StepResult where
  response : Response
  store : Store
  written : Option (String × String)
  tempDeleted : Option Bool
deriving Repr, DecidableEq

/-- os.path.join for the shapes create_notebook produces
(main.py line 158); the absolute-path test on the second component and
the trailing-separator test on the first are taken on the character
data. -/
def pathJoin (dir file : String) : String :=
  if (['/'] : List Char).isPrefixOf file.data then file
  else if dir = "" then file
  else if (['/'] : List Char).isSuffixOf dir.data then dir ++ file
  else dir ++ "/" ++ file

/-- The static tool catalog returned by list_tools (main.py lines 34-107). -/
def toolCatalog : List ToolSpec :=
  [ ⟨"create_notebook", "Create a new Jupyter notebook",
      [⟨"name", "string", none, "Notebook name"⟩,
       ⟨"path", "string", none, "Path to save notebook"⟩],
      ["name"]⟩,
    ⟨"execute_cell", "Execute code in a notebook cell",
      [⟨"code", "string", none, "Python code to execute"⟩,
       ⟨"notebook_id", "string", none, "Notebook ID (optional)"⟩],
      ["code"]⟩,
    ⟨"list_notebooks", "List all created notebooks", [], []⟩,
    ⟨"export_notebook", "Export notebook to various formats",
      [⟨"notebook_id", "string", none, "Notebook ID"⟩,
       ⟨"format", "string", some ["html", "pdf", "py"], "Export format"⟩],
      ["notebook_id", "format"]⟩,
    ⟨"install_package", "Install Python package for notebook use",
      [⟨"package", "string", none, "Package name to install"⟩],
      ["package"]⟩,
    ⟨"create_visualization", "Create data visualization using matplotlib/seaborn",
      [⟨"data", "string", none, "Data or data generation code"⟩,
       ⟨"chart_type", "string", some ["line", "bar", "scatter", "histogram", "heatmap"], "Chart type"⟩,
       ⟨"title", "string", none, "Chart title"⟩],
      ["data", "chart_type"]⟩ ]

/-- The JSON text json.dump writes for the fresh notebook structure
(main.py lines 141-162, indent=2). -/
def notebookFileContent : String :=
  "\x7b\n  \"cells\": [],\n  \"metadata\": \x7b\n    \"kernelspec\": \x7b\n      \"display_name\": \"Python 3\",\n      \"language\": \"python\",\n      \"name\": \"python3\"\n    \x7d,\n    \"language_info\": \x7b\n      \"name\": \"python\",\n      \"version\": \"3.8.0\"\n    \x7d\n  \x7d,\n  \"nbformat\": 4,\n  \"nbformat_minor\": 4\n\x7d"

/-- Success text of create_notebook (main.py line 171). -/
def createText (name nid npath : String) : String :=
  "Notebook \x27" ++ name ++ "\x27 created successfully!\nID: " ++ nid ++ "\nPath: " ++ npath

/-- create_notebook (main.py lines 133-175).  The uuid4 identifier and
the outcome of the artifact file write are explicit arguments. -/
def create_notebook (name : String) (path : Option String) (notebook_id : String)
    (write : WriteOutcome) (store : Store) : StepResult :=
  let dir := path.getD "/tmp"
  let notebook_path := pathJoin dir (name ++ ".ipynb")
  match write with
  | .failed msg =>
      ⟨.error ("Failed to create notebook: " ++ msg), store, none, none⟩
  | .ok =>
      ⟨.content (createText name notebook_id notebook_path),
       storeInsert store notebook_id ⟨name, notebook_path, []⟩,
       some (notebook_path, notebookFileContent), none⟩

/-- Output composition of the executor (main.py lines 199-208):
label stdout if nonempty, label stderr if nonempty, annotate a nonzero
exit code, and fall back to a fixed message when nothing was produced. -/
def composeOutput (stdout stderr : String) (returncode : Int) : String :=
  let o := (if stdout = "" then "" else "Output:\n" ++ stdout ++ "\n")
        ++ (if stderr = "" then "" else "Errors:\n" ++ stderr ++ "\n")
        ++ (if returncode = 0 then "" else "Exit code: " ++ toString returncode ++ "\n")
  if o = "" then "Code executed successfully (no output)" else o

/-- Success text of execute_cell (main.py line 219). -/
def execResponseText (code output : String) : String :=
  "# Code Execution Result\n\n```python\n" ++ code ++ "\n```\n\n" ++ output

/-- execute_cell (main.py lines 177-225).  The temporary file is created
before subprocess.run; the os.unlink call sits between subprocess.run
and the response construction, so it runs exactly when the child ran to
completion; on TimeoutExpired and on any launch failure the except
clauses return without reaching it.  The cell append happens only when
notebook_id is truthy and present in the store. -/
def execute_cell (code : String) (notebook_id : Option String) (run : RunResult)
    (store : Store) : StepResult :=
  match run with
  | .timedOut =>
      ⟨.error "Code execution timed out (30s limit)", store, none, some false⟩
  | .launchFailure msg =>
      ⟨.error ("Execution failed: " ++ msg), store, none, some false⟩
  | .completed stdout stderr rc =>
      let output := composeOutput stdout stderr rc
      let store' :=
        match notebook_id with
        | none => store
        | some nid =>
          if nid = "" then store
          else
            match storeLookup store nid with
            | none => store
            | some nb =>
                storeInsert store nid
                  { nb with cells := nb.cells ++ [⟨code, output, nb.cells.length + 1⟩] }
      ⟨.content (execResponseText code output), store', none, some true⟩

/-- Summary text built by list_notebooks over the store, in insertion
order (main.py lines 234-239). -/
def notebookSummary : Store → String
  | [] => ""
  | (nid, nb) :: rest =>
      "**" ++ nb.name ++ "**\n- ID: " ++ nid ++ "\n- Path: " ++ nb.path
        ++ "\n- Cells: " ++ toString nb.cells.length ++ "\n\n" ++ notebookSummary rest

/-- list_notebooks (main.py lines 227-243). -/
def list_notebooks (store : Store) : Response :=
  if store = [] then
    .content "No notebooks created yet. Use create_notebook to start."
  else
    .content ("# Jupyter Notebooks\n\n" ++ notebookSummary store)

/-- Python str.replace on character lists: replace every non-overlapping
occurrence of pat, scanning left to right. -/
def replaceAll (pat rep : List Char) : List Char → List Char
  | [] => []
  | c :: rest =>
    if pat ≠ [] ∧ pat.isPrefixOf (c :: rest) then
      rep ++ replaceAll pat rep (rest.drop (pat.length - 1))
    else
      c :: replaceAll pat rep rest
termination_by s => s.length
decreasing_by
  · simp only [List.length_drop, List.length_cons]
    omega
  · simp only [List.length_cons]
    omega

/-- Python str.replace on strings. -/
def strReplace (s pat rep : String) : String :=
  ⟨replaceAll pat.data rep.data s.data⟩

/-- Header of the exported Python script (main.py line 258). -/
def pyHeader (name : String) : String :=
  "# " ++ name ++ "\n# Exported from Jupyter notebook\n\n"

/-- One cell block of the exported Python script (main.py line 260). -/
def pyCellBlock (i : Nat) (c : Cell) : String :=
  "# Cell " ++ toString i ++ "\n" ++ c.code ++ "\n\n"

/-- The cell blocks of the script export, numbering from i
(the enumerate(cells, 1) loop of main.py lines 259-260). -/
def pyCells : Nat → List Cell → String
  | _, [] => ""
  | i, c :: rest => pyCellBlock i c ++ pyCells (i + 1) rest

/-- Full content of the exported Python script. -/
def pyContent (nb : Notebook) : String :=
  pyHeader nb.name ++ pyCells 1 nb.cells

/-- Concatenation of a list of strings. -/
def concatStrings : List String → String
  | [] => ""
  | x :: rest => x ++ concatStrings rest

/-- The per-cell segments of the script export, numbering from i. -/
def pySegs : Nat → List Cell → List String
  | _, [] => []
  | i, c :: rest => pyCellBlock i c :: pySegs (i + 1) rest

/-- Head of the exported HTML document (main.py lines 272-285). -/
def htmlHeader (name : String) : String :=
  "\n<!DOCTYPE html>\n<html>\n<head>\n    <title>" ++ name
    ++ "</title>\n    <style>\n        .cell \x7b margin: 20px 0; padding: 10px; border: 1px solid #ddd; \x7d\n        .code \x7b background: #f5f5f5; padding: 10px; font-family: monospace; \x7d\n        .output \x7b background: #fff; padding: 10px; \x7d\n    </style>\n</head>\n<body>\n    <h1>"
    ++ name ++ "</h1>\n"

/-- One cell section of the exported HTML document (main.py lines 287-293). -/
def htmlCellSection (i : Nat) (c : Cell) : String :=
  "\n    <div class=\"cell\">\n        <h3>Cell " ++ toString i
    ++ "</h3>\n        <div class=\"code\"><pre>" ++ c.code
    ++ "</pre></div>\n        <div class=\"output\"><pre>" ++ c.output
    ++ "</pre></div>\n    </div>\n"

/-- The cell sections of the HTML export, numbering from i
(the enumerate(cells, 1) loop of main.py lines 286-293). -/
def htmlCells : Nat → List Cell → String
  | _, [] => ""
  | i, c :: rest => htmlCellSection i c ++ htmlCells (i + 1) rest

/-- Full content of the exported HTML document. -/
def htmlContent (nb : Notebook) : String :=
  htmlHeader nb.name ++ htmlCells 1 nb.cells ++ "</body></html>"

/-- export_notebook (main.py lines 245-308).  The outcome of the file
write is an explicit argument; when it fails the except clause reports
the generic export failure and nothing is written. -/
def export_notebook (notebook_id format_type : String) (write : WriteOutcome)
    (store : Store) : StepResult :=
  match storeLookup store notebook_id with
  | none =>
      ⟨.error ("Notebook " ++ notebook_id ++ " not found"), store, none, none⟩
  | some nb =>
    if format_type = "py" then
      let py_path := strReplace nb.path ".ipynb" ".py"
      match write with
      | .failed msg => ⟨.error ("Export failed: " ++ msg), store, none, none⟩
      | .ok =>
          ⟨.content ("Notebook exported to Python script: " ++ py_path),
           store, some (py_path, pyContent nb), none⟩
    else if format_type = "html" then
      let html_path := strReplace nb.path ".ipynb" ".html"
      match write with
      | .failed msg => ⟨.error ("Export failed: " ++ msg), store, none, none⟩
      | .ok =>
          ⟨.content ("Notebook exported to HTML: " ++ html_path),
           store, some (html_path, htmlContent nb), none⟩
    else
      ⟨.error ("Export format \x27" ++ format_type ++ "\x27 not supported"), store, none, none⟩

/-- install_package (main.py lines 310-332).  The pip subprocess outcome
is an explicit argument. -/
def install_package (package : String) (run : RunResult) : Response :=
  match run with
  | .timedOut => .error "Package installation timed out"
  | .launchFailure msg => .error ("Installation failed: " ++ msg)
  | .completed stdout stderr rc =>
      if rc = 0 then
        .content ("Package \x27" ++ package ++ "\x27 installed successfully!\n\nOutput:\n" ++ stdout)
      else
        .error ("Failed to install " ++ package ++ ": " ++ stderr)

/-- One tools/call request together with the outcomes of the external
effects its handler performs. -/
inductive Op where
  | createNotebook (name : String) (path : Option String) (notebook_id : String)
      (write : WriteOutcome)
  | executeCell (code : String) (notebook_id : Option String) (run : RunResult)
  | listNotebooks
  | exportNotebook (notebook_id : String) (format_type : String) (write : WriteOutcome)
  | installPackage (package : String) (run : RunResult)
  | unknownTool (name : String)
deriving Repr, DecidableEq

/-- call_tool (main.py lines 109-131): dispatch on the tool name. -/
def call_tool : Op → Store → StepResult
  | .createNotebook name path nid w, s => create_notebook name path nid w s
  | .executeCell code nid run, s => execute_cell code nid run s
  | .listNotebooks, s => ⟨list_notebooks s, s, none, none⟩
  | .exportNotebook nid fmt w, s => export_notebook nid fmt w s
  | .installPackage pkg run, s => ⟨install_package pkg run, s, none, none⟩
  | .unknownTool name, s => ⟨.error ("Unknown tool: " ++ name), s, none, none⟩

/-- A parsed request: tools/list, tools/call, or an unrecognized method
(main.py lines 18-32). -/
inductive Request where
  | toolsList
  | toolsCall (op : Op)
  | unknownMethod (method : String)
deriving Repr, DecidableEq

/-- handle_request (main.py lines 18-32): dispatch on the method. -/
def handle_request : Request → Store → StepResult
  | .toolsList, s => ⟨.tools toolCatalog, s, none, none⟩
  | .toolsCall op, s => call_tool op s
  | .unknownMethod m, s => ⟨.error ("Unknown method: " ++ m), s, none, none⟩

/-- One line read by the main loop: an empty line (which terminates the
loop), a line that fails JSON parsing, or a parsed request. -/
inductive InputLine where
  | empty
  | invalidJson (raw : String)
  | valid (req : Request)
deriving Repr, DecidableEq

/-- The main stdio loop (main.py lines 426-449): one response per
consumed line, stop at end of stream or at an empty line; a JSON parse
failure yields the fixed Invalid JSON error and the loop continues. -/
def mainLoop : List InputLine → Store → List Response × Store
  | [], s => ([], s)
  | .empty :: _, s => ([], s)
  | .invalidJson _ :: rest, s =>
      let p := mainLoop rest s
      (.error "Invalid JSON" :: p.1, p.2)
  | .valid req :: rest, s =>
      let r := handle_request req s
      let p := mainLoop rest r.store
      (r.response :: p.1, p.2)

/-- Number of input lines the loop consumes and answers. -/
def countProcessed : List InputLine → Nat
  | [] => 0
  | .empty :: _ => 0
  | .invalidJson _ :: rest => countProcessed rest + 1
  | .valid _ :: rest => countProcessed rest + 1

/-- Run a sequence of tool calls, threading the store. -/
def runOps : List Op → Store → Store
  | [], s => s
  | op :: rest, s => runOps rest (call_tool op s).store

/-- Run a sequence of execute_cell calls all targeting notebook_id nid:
each list entry carries the code text and the subprocess outcome. -/
def runExecCalls (nid : String) : List (String × RunResult) → Store → Store
  | [], s => s
  | c :: rest, s => runExecCalls nid rest (execute_cell c.1 (some nid) c.2 s).store

/-- Run a sequence of create_notebook calls: the i-th call (counting
from i0) uses the identifier gen i, default path and a successful file
write. -/
def runCreates (gen : Nat → String) : Nat → List String → Store → Store
  | _, [], s => s
  | i0, name :: rest, s =>
      runCreates gen (i0 + 1) rest (create_notebook name none (gen i0) .ok s).store

/-- All cells of a list carry their 1-based position as execution_count. -/
def countsOK (l : List Cell) : Prop :=
  ∀ k (hk : k < l.length), (l.get ⟨k, hk⟩).execution_count = k + 1

/-! ## Helper lemmas -/

/-- Strings with equal character data are equal. -/
theorem strExt {a b : String} (h : a.data = b.data) : a = b := by
  cases a
  cases b
  exact congrArg String.mk h

/-- Character data of an appended string. -/
theorem strDataAppend (a b : String) : (a ++ b).data = a.data ++ b.data := by
  cases a
  cases b
  rfl

/-- String append is associative. -/
theorem strAppend_assoc (a b c : String) : (a ++ b) ++ c = a ++ (b ++ c) := by
  apply strExt
  rw [strDataAppend, strDataAppend, strDataAppend, strDataAppend, List.append_assoc]

/-- The empty string is a left identity of append. -/
theorem strEmptyAppend (s : String) : "" ++ s = s := by
  apply strExt
  rw [strDataAppend]
  rfl

/-- Two strings whose data start with distinct characters stay different
even after appending anything to the second. -/
theorem str_ne_append_of_head (a b m : String) (x y : Char) (ta tb : List Char)
    (ha : a.data = x :: ta) (hb : b.data = y :: tb) (hxy : x ≠ y) :
    a ≠ b ++ m := by
  intro h
  have hd := congrArg String.data h
  rw [strDataAppend, ha, hb, List.cons_append] at hd
  injection hd with h1 _
  exact hxy h1

/-- A character list whose head differs cannot be an extension of the
data of another string. -/
theorem data_ne_append_of_head (l b : List Char) (x y : Char) (ta tb : List Char)
    (ha : l = x :: ta) (hb : b = y :: tb) (hxy : x ≠ y) (rest : List Char) :
    l ≠ b ++ rest := by
  intro h
  rw [ha, hb, List.cons_append] at h
  injection h with h1 _
  exact hxy h1

/-- Looking up the freshly assigned key returns the assigned record. -/
theorem storeLookup_insert_self (s : Store) (k : String) (v : Notebook) :
    storeLookup (storeInsert s k v) k = some v := by
  induction s with
  | nil => simp [storeInsert, storeLookup]
  | cons hd tl ih =>
      obtain ⟨ka, va⟩ := hd
      by_cases hk : ka = k
      · simp [storeInsert, hk, storeLookup]
      · simp [storeInsert, hk, storeLookup, ih]

/-- Assigning one key leaves lookups of other keys unchanged. -/
theorem storeLookup_insert_ne (s : Store) (k k2 : String) (v : Notebook)
    (h : k ≠ k2) : storeLookup (storeInsert s k v) k2 = storeLookup s k2 := by
  induction s with
  | nil => simp [storeInsert, storeLookup, h]
  | cons hd tl ih =>
      obtain ⟨ka, va⟩ := hd
      by_cases hk : ka = k
      · subst hk
        simp [storeInsert, storeLookup, h]
      · simp [storeInsert, hk, storeLookup, ih]

/-- dict assignment never removes a key. -/
theorem storeLookup_isSome_insert (s : Store) (k k2 : String) (v : Notebook)
    (h : (storeLookup s k2).isSome) :
    (storeLookup (storeInsert s k v) k2).isSome := by
  by_cases hk : k = k2
  · subst hk
    rw [storeLookup_insert_self]
    rfl
  · rw [storeLookup_insert_ne s k k2 v hk]
    exact h

/-- The main loop answers every consumed line with exactly one response:
the response count equals the number of lines before the stream ends or
an empty line stops the loop, so neither a parse failure nor a handler
result ever terminates it early. -/
theorem mainLoop_length (lines : List InputLine) (s : Store) :
    (mainLoop lines s).1.length = countProcessed lines := by
  induction lines generalizing s with
  | nil => rfl
  | cons hd tl ih =>
      cases hd with
      | empty => rfl
      | invalidJson raw => simp [mainLoop, countProcessed, ih]
      | valid req => simp [mainLoop, countProcessed, ih]

/-! ## Claim theorems -/

/-- Claim C1 (code bug): the os.unlink call sits after subprocess.run in
the try block, so when the child exceeds the 30 second limit the
TimeoutExpired handler returns the timeout error without ever deleting
the temporary file.  At the failing input (a cell that sleeps past the
limit) the call returns the timeout error and the temporary file
survives, while a completed run does delete it. -/
theorem c1_execute_cell_timeout_skips_unlink :
    (execute_cell "import time\ntime.sleep(60)" none RunResult.timedOut []).tempDeleted
      = some false ∧
    (execute_cell "import time\ntime.sleep(60)" none RunResult.timedOut []).response
      = Response.error "Code execution timed out (30s limit)" ∧
    (execute_cell "print(1)" none (RunResult.completed "1\n" "" 0) []).tempDeleted
      = some true :=
  ⟨rfl, rfl, rfl⟩

/-- Claim C2 counterexample: when the pip child process exceeds its 60
second limit, install_package reports "Package installation timed out",
not the claimed "Code execution timed out (60s limit)". -/
theorem c2_install_timeout_message_cex :
    install_package "numpy" RunResult.timedOut
      = Response.error "Package installation timed out" ∧
    install_package "numpy" RunResult.timedOut
      ≠ Response.error "Code execution timed out (60s limit)" := by
  refine ⟨rfl, ?_⟩
  decide

/-- Claim C2 (amended): a timed-out execute_cell child yields exactly the
error "Code execution timed out (30s limit)" and a timed-out pip child
yields exactly the error "Package installation timed out"; neither is a
success content response, and neither coincides with the generic launch
failure error of the same handler. -/
theorem c2_timeout_errors_distinct (code : String) (nid : Option String)
    (s : Store) (pkg : String) :
    (execute_cell code nid RunResult.timedOut s).response
      = Response.error "Code execution timed out (30s limit)" ∧
    (execute_cell code nid RunResult.timedOut s).response.isContent = false ∧
    (∀ msg, (execute_cell code nid RunResult.timedOut s).response
      ≠ (execute_cell code nid (RunResult.launchFailure msg) s).response) ∧
    install_package pkg RunResult.timedOut
      = Response.error "Package installation timed out" ∧
    (install_package pkg RunResult.timedOut).isContent = false ∧
    (∀ msg, install_package pkg RunResult.timedOut
      ≠ install_package pkg (RunResult.launchFailure msg)) := by
  refine ⟨rfl, rfl, ?_, rfl, rfl, ?_⟩
  · intro msg h
    simp only [execute_cell, Response.error.injEq] at h
    exact str_ne_append_of_head _ _ msg 'C' 'E'
      "ode execution timed out (30s limit)".data "xecution failed: ".data rfl rfl
      (by decide) h
  · intro msg h
    simp only [install_package, Response.error.injEq] at h
    exact str_ne_append_of_head _ _ msg 'P' 'I'
      "ackage installation timed out".data "nstallation failed: ".data rfl rfl
      (by decide) h

/-- Claim C4: a line that fails JSON parsing produces exactly the
response object with the fixed Invalid JSON error, after which the loop
processes the remaining lines from the same state; and for any input,
the loop answers exactly one response per consumed line, stopping only
at end of stream or at an empty line, never at a malformed line. -/
theorem c4_invalid_json_recovery (raw : String) (rest : List InputLine) (s : Store) :
    mainLoop (InputLine.invalidJson raw :: rest) s
      = (Response.error "Invalid JSON" :: (mainLoop rest s).1, (mainLoop rest s).2) ∧
    (∀ (lines : List InputLine) (t : Store),
      (mainLoop lines t).1.length = countProcessed lines) :=
  ⟨rfl, fun lines t => mainLoop_length lines t⟩

/-- Claim C7: tools/list is pure and idempotent: on every store it
returns the same static response built from the six-entry catalog and
leaves the store untouched; the catalog names the six declared tools. -/
theorem c7_tools_list_idempotent (s : Store) :
    handle_request Request.toolsList s
      = ⟨Response.tools toolCatalog, s, none, none⟩ ∧
    toolCatalog.length = 6 ∧
    toolCatalog.map ToolSpec.name
      = ["create_notebook", "execute_cell", "list_notebooks", "export_notebook",
         "install_package", "create_visualization"] :=
  ⟨rfl, rfl, rfl⟩

/-- Claim C8: export_notebook on an identifier that is not a key of the
session store answers exactly the interpolated not-found error, writes
no file, and leaves the store unchanged, whatever the requested format
and whatever the file system would have done. -/
theorem c8_export_unknown_notebook (nid fmt : String) (w : WriteOutcome) (s : Store)
    (h : storeLookup s nid = none) :
    export_notebook nid fmt w s
      = ⟨Response.error ("Notebook " ++ nid ++ " not found"), s, none, none⟩ := by
  unfold export_notebook
  rw [h]

/-- Witness for C8 at a concrete unknown identifier and empty store. -/
theorem c8_export_unknown_notebook_witness :
    storeLookup [] "missing" = none ∧
    export_notebook "missing" "py" WriteOutcome.ok []
      = ⟨Response.error ("Notebook " ++ "missing" ++ " not found"), [], none, none⟩ :=
  ⟨rfl, c8_export_unknown_notebook "missing" "py" WriteOutcome.ok [] rfl⟩

/-- Claim C10: although the declared input schema of export_notebook
lists "pdf" in its closed enum of legal format values, the handler on an
existing notebook answers the unsupported-format error for "pdf",
writes nothing and changes nothing; a file is only ever produced for
"py" or "html". -/
theorem c10_export_pdf_unsupported (nid : String) (nb : Notebook) (s : Store)
    (w : WriteOutcome) (h : storeLookup s nid = some nb) :
    export_notebook nid "pdf" w s
      = ⟨Response.error ("Export format \x27" ++ "pdf" ++ "\x27 not supported"),
         s, none, none⟩ ∧
    (∃ t ∈ toolCatalog, t.name = "export_notebook" ∧
      ∃ p ∈ t.properties, p.name = "format" ∧ p.enum = some ["html", "pdf", "py"]) ∧
    (∀ fmt w2, (export_notebook nid fmt w2 s).written ≠ none →
      fmt = "py" ∨ fmt = "html") := by
  refine ⟨?_, by decide, ?_⟩
  · simp [export_notebook, h]
  · intro fmt w2 hw
    by_cases h1 : fmt = "py"
    · exact Or.inl h1
    by_cases h2 : fmt = "html"
    · exact Or.inr h2
    exfalso
    apply hw
    simp [export_notebook, h, h1, h2]

/-- Witness for C10 at a concrete stored notebook. -/
theorem c10_export_pdf_unsupported_witness :
    storeLookup [("nb1", ⟨"demo", "/tmp/demo.ipynb", []⟩)] "nb1"
      = some ⟨"demo", "/tmp/demo.ipynb", []⟩ ∧
    (export_notebook "nb1" "pdf" WriteOutcome.ok [("nb1", ⟨"demo", "/tmp/demo.ipynb", []⟩)]
      = ⟨Response.error ("Export format \x27" ++ "pdf" ++ "\x27 not supported"),
         [("nb1", ⟨"demo", "/tmp/demo.ipynb", []⟩)], none, none⟩ ∧
     (∃ t ∈ toolCatalog, t.name = "export_notebook" ∧
       ∃ p ∈ t.properties, p.name = "format" ∧ p.enum = some ["html", "pdf", "py"]) ∧
     (∀ fmt w2,
        (export_notebook "nb1" fmt w2 [("nb1", ⟨"demo", "/tmp/demo.ipynb", []⟩)]).written
          ≠ none → fmt = "py" ∨ fmt = "html")) :=
  ⟨rfl, c10_export_pdf_unsupported "nb1" ⟨"demo", "/tmp/demo.ipynb", []⟩
    [("nb1", ⟨"demo", "/tmp/demo.ipynb", []⟩)] WriteOutcome.ok rfl⟩

/-- Claim C9 (amended): when the notebook_id argument is omitted or does
not resolve to a stored notebook, execute_cell leaves every notebook
record unchanged whatever the subprocess outcome; when the subprocess
additionally runs to completion the call returns the success content
response carrying the execution output; and no error it ever returns is
a not-found error (none starts with "Notebook "). -/
theorem c9_unresolved_id_frame (code : String) (nid : Option String)
    (run : RunResult) (s : Store)
    (h : ∀ x, nid = some x → storeLookup s x = none) :
    (execute_cell code nid run s).store = s ∧
    (∀ o e rc, run = RunResult.completed o e rc →
      (execute_cell code nid run s).response
        = Response.content (execResponseText code (composeOutput o e rc))) ∧
    (∀ msg, (execute_cell code nid run s).response = Response.error msg →
      ∀ rest, msg.data ≠ "Notebook ".data ++ rest) := by
  cases run with
  | timedOut =>
      refine ⟨rfl, fun o e rc hco => RunResult.noConfusion hco, ?_⟩
      intro msg hmsg rest
      simp only [execute_cell, Response.error.injEq] at hmsg
      subst hmsg
      exact data_ne_append_of_head _ _ 'C' 'N'
        "ode execution timed out (30s limit)".data "otebook ".data rfl rfl
        (by decide) rest
  | launchFailure m =>
      refine ⟨rfl, fun o e rc hco => RunResult.noConfusion hco, ?_⟩
      intro msg hmsg rest
      simp only [execute_cell, Response.error.injEq] at hmsg
      subst hmsg
      rw [strDataAppend]
      exact data_ne_append_of_head _ _ 'E' 'N'
        ("xecution failed: ".data ++ m.data) "otebook ".data rfl rfl
        (by decide) rest
  | completed o e rc =>
      refine ⟨?_, ?_, ?_⟩
      · cases nid with
        | none => rfl
        | some x =>
            have hx := h x rfl
            by_cases hx0 : x = ""
            · simp [execute_cell, hx0]
            · simp [execute_cell, hx0, hx]
      · intro o2 e2 rc2 hco
        injection hco with h1 h2 h3
        subst h1
        subst h2
        subst h3
        rfl
      · intro msg hmsg rest
        simp [execute_cell] at hmsg

/-- Witness for C9 at a concrete omitted notebook_id, completed run and
one stored notebook. -/
theorem c9_unresolved_id_frame_witness :
    (∀ x, (none : Option String) = some x →
      storeLookup [("nb1", ⟨"demo", "/tmp/demo.ipynb", []⟩)] x = none) ∧
    ((execute_cell "print(1)" none (RunResult.completed "1\n" "" 0)
        [("nb1", ⟨"demo", "/tmp/demo.ipynb", []⟩)]).store
        = [("nb1", ⟨"demo", "/tmp/demo.ipynb", []⟩)] ∧
     (∀ o e rc, (RunResult.completed "1\n" "" 0 : RunResult) = RunResult.completed o e rc →
       (execute_cell "print(1)" none (RunResult.completed "1\n" "" 0)
          [("nb1", ⟨"demo", "/tmp/demo.ipynb", []⟩)]).response
         = Response.content (execResponseText "print(1)" (composeOutput o e rc))) ∧
     (∀ msg, (execute_cell "print(1)" none (RunResult.completed "1\n" "" 0)
          [("nb1", ⟨"demo", "/tmp/demo.ipynb", []⟩)]).response = Response.error msg →
       ∀ rest, msg.data ≠ "Notebook ".data ++ rest)) :=
  ⟨fun _ hx => Option.noConfusion hx,
   c9_unresolved_id_frame "print(1)" none (RunResult.completed "1\n" "" 0)
     [("nb1", ⟨"demo", "/tmp/demo.ipynb", []⟩)] (fun _ hx => Option.noConfusion hx)⟩

/-- Claim C9 counterexample: an execute_cell call with notebook_id
omitted whose child times out returns the timeout error, not a success
content response (the store is still left unchanged). -/
theorem c9_timeout_response_cex :
    (execute_cell "import time\ntime.sleep(60)" none RunResult.timedOut
        [("nbX", ⟨"other", "/tmp/other.ipynb", []⟩)]).response.isContent = false ∧
    (execute_cell "import time\ntime.sleep(60)" none RunResult.timedOut
        [("nbX", ⟨"other", "/tmp/other.ipynb", []⟩)]).store
      = [("nbX", ⟨"other", "/tmp/other.ipynb", []⟩)] :=
  ⟨rfl, rfl⟩

/-- Claim C3 counterexample: one execute_cell call whose notebook_id
resolves to a stored notebook but whose child times out appends no cell,
so after N = 1 such calls the cells sequence has length 0, not 1. -/
theorem c3_timeout_call_appends_nothing_cex :
    (storeLookup
        (runExecCalls "nb1" [("import time\ntime.sleep(60)", RunResult.timedOut)]
          [("nb1", ⟨"demo", "/tmp/demo.ipynb", []⟩)]) "nb1").map
        (fun nb => nb.cells.length) = some 0 := rfl

/-- Appending a cell numbered length + 1 keeps positional numbering. -/
theorem countsOK_append (l : List Cell) (c : Cell) (hl : countsOK l)
    (hc : c.execution_count = l.length + 1) : countsOK (l ++ [c]) := by
  intro k hk
  have hk2 : k < l.length + 1 := by simpa using hk
  by_cases h : k < l.length
  · have hget : (l ++ [c]).get ⟨k, hk⟩ = l.get ⟨k, h⟩ := by
      rw [List.get_eq_getElem, List.get_eq_getElem]
      exact List.getElem_append_left h
    rw [hget]
    exact hl k h
  · have hkl : k = l.length := by omega
    subst hkl
    have hget : (l ++ [c]).get ⟨l.length, hk⟩ = c := by
      rw [List.get_eq_getElem]
      simp
    rw [hget]
    exact hc

/-- A run of execute_cell calls all targeting a stored notebook with
completed subprocess outcomes appends one cell per call and keeps the
positional execution_count numbering. -/
theorem runExecCalls_growth (nid : String) (hnid : ¬ nid = "") :
    ∀ (calls : List (String × RunResult)),
      (∀ c ∈ calls, ∃ o e rc, c.2 = RunResult.completed o e rc) →
      ∀ (s : Store) (nb : Notebook), storeLookup s nid = some nb → countsOK nb.cells →
      ∃ nb2, storeLookup (runExecCalls nid calls s) nid = some nb2 ∧
        nb2.cells.length = nb.cells.length + calls.length ∧ countsOK nb2.cells := by
  intro calls
  induction calls with
  | nil =>
      intro _ s nb h hc
      exact ⟨nb, h, by simp [runExecCalls], hc⟩
  | cons c rest ih =>
      intro hcompl s nb h hc
      obtain ⟨o, e, rc, hcr⟩ := hcompl c (List.mem_cons_self c rest)
      have hstep : (execute_cell c.1 (some nid) c.2 s).store
          = storeInsert s nid
              { nb with cells := nb.cells ++ [⟨c.1, composeOutput o e rc, nb.cells.length + 1⟩] } := by
        rw [hcr]
        simp [execute_cell, hnid, h]
      have hlk : storeLookup (execute_cell c.1 (some nid) c.2 s).store nid
          = some { nb with cells := nb.cells ++ [⟨c.1, composeOutput o e rc, nb.cells.length + 1⟩] } := by
        rw [hstep]
        exact storeLookup_insert_self s nid _
      have hcounts : countsOK
          ({ nb with cells := nb.cells ++ [⟨c.1, composeOutput o e rc, nb.cells.length + 1⟩] } : Notebook).cells :=
        countsOK_append nb.cells _ hc rfl
      have hrest : ∀ d ∈ rest, ∃ o2 e2 rc2, d.2 = RunResult.completed o2 e2 rc2 :=
        fun d hd => hcompl d (List.mem_cons_of_mem c hd)
      obtain ⟨nb2, h1, h2, h3⟩ := ih hrest _ _ hlk hcounts
      refine ⟨nb2, ?_, ?_, h3⟩
      · simpa [runExecCalls] using h1
      · simp only [List.length_append, List.length_cons, List.length_nil] at h2 ⊢
        omega

/-- export_notebook never mutates the session store. -/
theorem export_store_unchanged (nid fmt : String) (w : WriteOutcome) (s : Store) :
    (export_notebook nid fmt w s).store = s := by
  unfold export_notebook
  cases storeLookup s nid with
  | none => rfl
  | some nb =>
      by_cases h1 : fmt = "py"
      · simp only [h1, if_pos]
        cases w <;> rfl
      · by_cases h2 : fmt = "html"
        · simp only [h1, h2, if_neg, if_pos]
          cases w <;> rfl
        · simp [h1, h2]

/-- Claim C3 (amended): for every stored notebook that starts with no
cells, after N successive execute_cell calls targeting it whose
sandboxed execution runs to completion, the cells sequence has length N
and the Kth appended cell carries execution_count K; and no tool call
(other than a create_notebook reusing the very same identifier, which
the uuid supply never does) removes, reorders or renumbers existing
cells: the cells sequence afterwards is always the old sequence plus an
appended tail. -/
theorem c3_cells_append_only :
    (∀ (nid : String), ¬ nid = "" →
      ∀ (calls : List (String × RunResult)),
        (∀ c ∈ calls, ∃ o e rc, c.2 = RunResult.completed o e rc) →
        ∀ (s : Store) (nb : Notebook),
          storeLookup s nid = some nb → nb.cells = [] →
          ∃ nb2, storeLookup (runExecCalls nid calls s) nid = some nb2 ∧
            nb2.cells.length = calls.length ∧
            ∀ k (hk : k < nb2.cells.length),
              (nb2.cells.get ⟨k, hk⟩).execution_count = k + 1) ∧
    (∀ (op : Op) (s : Store) (nid : String) (nb : Notebook),
      storeLookup s nid = some nb →
      (∀ name path w, ¬ op = Op.createNotebook name path nid w) →
      ∃ nb2, storeLookup (call_tool op s).store nid = some nb2 ∧
        ∃ tail, nb2.cells = nb.cells ++ tail) := by
  constructor
  · intro nid hnid calls hcompl s nb h hempty
    have hc0 : countsOK nb.cells := by
      rw [hempty]
      intro k hk
      simp at hk
    obtain ⟨nb2, h1, h2, h3⟩ := runExecCalls_growth nid hnid calls hcompl s nb h hc0
    refine ⟨nb2, h1, ?_, h3⟩
    rw [h2, hempty]
    simp
  · intro op s nid nb h hnotcreate
    cases op with
    | createNotebook name path id w =>
        cases w with
        | failed msg => exact ⟨nb, h, [], by simp⟩
        | ok =>
            have hid : ¬ id = nid := fun he => hnotcreate name path .ok (by rw [he])
            refine ⟨nb, ?_, [], by simp⟩
            show storeLookup (storeInsert s id _) nid = some nb
            rw [storeLookup_insert_ne _ _ _ _ hid]
            exact h
    | executeCell code idOpt run =>
        cases run with
        | timedOut => exact ⟨nb, h, [], by simp⟩
        | launchFailure m => exact ⟨nb, h, [], by simp⟩
        | completed o e rc =>
            cases idOpt with
            | none => exact ⟨nb, h, [], by simp⟩
            | some x =>
                by_cases hx0 : x = ""
                · refine ⟨nb, ?_, [], by simp⟩
                  show storeLookup (execute_cell code (some x) _ s).store nid = some nb
                  simp [execute_cell, hx0]
                  exact h
                · cases hlx : storeLookup s x with
                  | none =>
                      refine ⟨nb, ?_, [], by simp⟩
                      show storeLookup (execute_cell code (some x) _ s).store nid = some nb
                      simp [execute_cell, hx0, hlx]
                      exact h
                  | some nbx =>
                      by_cases hxe : x = nid
                      · subst hxe
                        have hnb : nbx = nb := by
                          rw [hlx] at h
                          exact Option.some.inj h
                        subst hnb
                        refine ⟨{ nbx with cells := nbx.cells ++
                            [⟨code, composeOutput o e rc, nbx.cells.length + 1⟩] }, ?_,
                            [⟨code, composeOutput o e rc, nbx.cells.length + 1⟩], rfl⟩
                        show storeLookup (execute_cell code (some x) _ s).store x = some _
                        simp [execute_cell, hx0, hlx]
                        exact storeLookup_insert_self s x _
                      · refine ⟨nb, ?_, [], by simp⟩
                        show storeLookup (execute_cell code (some x) _ s).store nid = some nb
                        simp [execute_cell, hx0, hlx]
                        rw [storeLookup_insert_ne _ _ _ _ hxe]
                        exact h
    | listNotebooks => exact ⟨nb, h, [], by simp⟩
    | exportNotebook id fmt w =>
        refine ⟨nb, ?_, [], by simp⟩
        show storeLookup (export_notebook id fmt w s).store nid = some nb
        rw [export_store_unchanged]
        exact h
    | installPackage pkg run => exact ⟨nb, h, [], by simp⟩
    | unknownTool name => exact ⟨nb, h, [], by simp⟩

/-- Witness for C3 at one completed call against a concrete fresh
notebook, and at a concrete non-create operation. -/
theorem c3_cells_append_only_witness :
    (¬ "nb1" = "" ∧
     storeLookup [("nb1", ⟨"demo", "/tmp/demo.ipynb", []⟩)] "nb1"
       = some ⟨"demo", "/tmp/demo.ipynb", []⟩) ∧
    (∃ nb2,
      storeLookup
          (runExecCalls "nb1" [("print(1)", RunResult.completed "1\n" "" 0)]
            [("nb1", ⟨"demo", "/tmp/demo.ipynb", []⟩)]) "nb1" = some nb2 ∧
      nb2.cells.length = 1 ∧
      ∀ k (hk : k < nb2.cells.length), (nb2.cells.get ⟨k, hk⟩).execution_count = k + 1) ∧
    (∃ nb2,
      storeLookup (call_tool Op.listNotebooks
          [("nb1", ⟨"demo", "/tmp/demo.ipynb", []⟩)]).store "nb1" = some nb2 ∧
      ∃ tail, nb2.cells = (⟨"demo", "/tmp/demo.ipynb", []⟩ : Notebook).cells ++ tail) :=
  ⟨⟨by decide, rfl⟩,
   c3_cells_append_only.1 "nb1" (by decide)
     [("print(1)", RunResult.completed "1\n" "" 0)]
     (fun c hc => by
       simp only [List.mem_singleton] at hc
       rw [hc]
       exact ⟨"1\n", "", 0, rfl⟩)
     [("nb1", ⟨"demo", "/tmp/demo.ipynb", []⟩)] ⟨"demo", "/tmp/demo.ipynb", []⟩ rfl rfl,
   c3_cells_append_only.2 Op.listNotebooks
     [("nb1", ⟨"demo", "/tmp/demo.ipynb", []⟩)] "nb1" ⟨"demo", "/tmp/demo.ipynb", []⟩ rfl
     (fun _ _ _ he => Op.noConfusion he)⟩

/-- No tool call ever removes a key from the session store. -/
theorem call_tool_keeps (op : Op) (s : Store) (k : String)
    (h : (storeLookup s k).isSome) :
    (storeLookup (call_tool op s).store k).isSome := by
  cases op with
  | createNotebook name path id w =>
      cases w with
      | failed msg => exact h
      | ok => exact storeLookup_isSome_insert s id k _ h
  | executeCell code idOpt run =>
      cases run with
      | timedOut => exact h
      | launchFailure m => exact h
      | completed o e rc =>
          cases idOpt with
          | none => exact h
          | some x =>
              by_cases hx0 : x = ""
              · simpa [call_tool, execute_cell, hx0] using h
              · cases hlx : storeLookup s x with
                | none => simpa [call_tool, execute_cell, hx0, hlx] using h
                | some nbx =>
                    have h2 := storeLookup_isSome_insert s x k
                      { nbx with cells := nbx.cells ++
                        [⟨code, composeOutput o e rc, nbx.cells.length + 1⟩] } h
                    simpa [call_tool, execute_cell, hx0, hlx] using h2
  | listNotebooks => exact h
  | exportNotebook id fmt w =>
      show (storeLookup (export_notebook id fmt w s).store k).isSome
      rw [export_store_unchanged]
      exact h
  | installPackage pkg run => exact h
  | unknownTool name => exact h

/-- No sequence of tool calls ever removes a key from the session store. -/
theorem runOps_keeps (ops : List Op) (s : Store) (k : String)
    (h : (storeLookup s k).isSome) :
    (storeLookup (runOps ops s) k).isSome := by
  induction ops generalizing s with
  | nil => exact h
  | cons op rest ih => exact ih _ (call_tool_keeps op s k h)

/-- A run of create_notebook calls keeps every existing key. -/
theorem runCreates_keeps (gen : Nat → String) (names : List String) :
    ∀ (i0 : Nat) (s : Store) (k : String),
      (storeLookup s k).isSome →
      (storeLookup (runCreates gen i0 names s) k).isSome := by
  induction names with
  | nil => intro i0 s k h; exact h
  | cons name rest ih =>
      intro i0 s k h
      exact ih (i0 + 1) _ k (storeLookup_isSome_insert s (gen i0) k _ h)

/-- After a run of create_notebook calls, every identifier handed to one
of the calls is a key of the session store. -/
theorem runCreates_adds (gen : Nat → String) (names : List String) :
    ∀ (i0 i : Nat), i0 ≤ i → i < i0 + names.length →
      ∀ s : Store, (storeLookup (runCreates gen i0 names s) (gen i)).isSome := by
  induction names with
  | nil =>
      intro i0 i h1 h2 s
      exact absurd h2 (by simp only [List.length_nil]; omega)
  | cons name rest ih =>
      intro i0 i h1 h2 s
      by_cases he : i = i0
      · subst he
        show (storeLookup (runCreates gen (i + 1) rest
            (create_notebook name none (gen i) WriteOutcome.ok s).store) (gen i)).isSome
        apply runCreates_keeps
        rw [show (create_notebook name none (gen i) WriteOutcome.ok s).store
            = storeInsert s (gen i) ⟨name, pathJoin "/tmp" (name ++ ".ipynb"), []⟩ from rfl,
          storeLookup_insert_self]
        rfl
      · exact ih (i0 + 1) i (by omega) (by
          simp only [List.length_cons] at h2
          omega) _

/-- Claim C6: with the uuid supply modelled as an injective identifier
source, any sequence of create_notebook calls yields pairwise distinct
identifiers, after the sequence every generated identifier is a key of
the session store, and no later tool call of any kind ever removes a key
(there is no destroy operation). -/
theorem c6_create_ids_unique_persistent (gen : Nat → String)
    (hinj : Function.Injective gen) (names : List String) (s0 : Store) :
    ((List.range names.length).map gen).Nodup ∧
    (∀ i, i < names.length →
      (storeLookup (runCreates gen 0 names s0) (gen i)).isSome) ∧
    (∀ (ops : List Op) (s : Store) (k : String),
      (storeLookup s k).isSome → (storeLookup (runOps ops s) k).isSome) := by
  refine ⟨(List.nodup_range _).map hinj, ?_, runOps_keeps⟩
  intro i hi
  exact runCreates_adds gen names 0 i (Nat.zero_le i) (by omega) s0

/-- Witness for C6 with a concrete injective identifier supply and two
concrete create calls. -/
theorem c6_create_ids_unique_persistent_witness :
    Function.Injective (fun n => (⟨List.replicate n 'a'⟩ : String)) ∧
    (((List.range (["demo", "test"] : List String).length).map
        (fun n => (⟨List.replicate n 'a'⟩ : String))).Nodup ∧
     (∀ i, i < (["demo", "test"] : List String).length →
       (storeLookup
           (runCreates (fun n => (⟨List.replicate n 'a'⟩ : String)) 0 ["demo", "test"] [])
           ((fun n => (⟨List.replicate n 'a'⟩ : String)) i)).isSome) ∧
     (∀ (ops : List Op) (s : Store) (k : String),
       (storeLookup s k).isSome → (storeLookup (runOps ops s) k).isSome)) := by
  have hinj : Function.Injective (fun n => (⟨List.replicate n 'a'⟩ : String)) := by
    intro a b h
    have h2 := congrArg (fun s => s.data.length) h
    simpa using h2
  exact ⟨hinj, c6_create_ids_unique_persistent _ hinj ["demo", "test"] []⟩

/-- Python str.replace consumes a trailing ".ipynb" occurrence whole
exactly when no occurrence of ".ipynb" starts at any earlier position
of the path. -/
theorem replaceAll_extension (rep : List Char) :
    ∀ stem : List Char,
      (∀ i, i < stem.length →
        (['.', 'i', 'p', 'y', 'n', 'b'] : List Char).isPrefixOf
          ((stem ++ ['.', 'i', 'p', 'y', 'n', 'b']).drop i) = false) →
      replaceAll ['.', 'i', 'p', 'y', 'n', 'b'] rep (stem ++ ['.', 'i', 'p', 'y', 'n', 'b'])
        = stem ++ rep := by
  intro stem
  induction stem with
  | nil =>
      intro _
      rw [List.nil_append, replaceAll, if_pos ⟨by decide, by decide⟩]
      rw [show (['i', 'p', 'y', 'n', 'b'] : List Char).drop
          (['.', 'i', 'p', 'y', 'n', 'b'].length - 1) = [] from rfl]
      rw [replaceAll]
      simp
  | cons c rest ih =>
      intro h
      have htail : ∀ i, i < rest.length →
          (['.', 'i', 'p', 'y', 'n', 'b'] : List Char).isPrefixOf
            ((rest ++ ['.', 'i', 'p', 'y', 'n', 'b']).drop i) = false := by
        intro i hi
        have h2 := h (i + 1) (by simp only [List.length_cons]; omega)
        simpa only [List.cons_append, List.drop_succ_cons] using h2
      rw [List.cons_append, replaceAll, if_neg]
      · rw [ih htail]
        rfl
      · intro hand
        have h0 := h 0 (by simp only [List.length_cons]; omega)
        simp only [List.cons_append, List.drop_zero] at h0
        rw [hand.2] at h0
        exact Bool.noConfusion h0

/-- Python str.replace past a first ".ipynb" occurrence that a dot-free
prefix precedes: the occurrence is replaced and scanning continues on
the remainder. -/
theorem replaceAll_ipynb_then (rep tail : List Char) :
    ∀ stem : List Char, ('.' ∉ stem) →
      replaceAll ['.', 'i', 'p', 'y', 'n', 'b'] rep
          (stem ++ ['.', 'i', 'p', 'y', 'n', 'b'] ++ tail)
        = stem ++ rep ++ replaceAll ['.', 'i', 'p', 'y', 'n', 'b'] rep tail := by
  intro stem
  induction stem with
  | nil =>
      intro _
      rw [List.nil_append]
      rw [show ((['.', 'i', 'p', 'y', 'n', 'b'] : List Char) ++ tail)
          = '.' :: (['i', 'p', 'y', 'n', 'b'] ++ tail) from rfl]
      rw [replaceAll, if_pos]
      · rw [show ((['i', 'p', 'y', 'n', 'b'] : List Char) ++ tail).drop
            (['.', 'i', 'p', 'y', 'n', 'b'].length - 1) = tail from rfl]
        rfl
      · refine ⟨by decide, ?_⟩
        simp [List.isPrefixOf]
  | cons c rest ih =>
      intro h
      have hc : c ≠ '.' := fun he => h (by rw [he]; exact List.mem_cons_self _ _)
      have hrest : '.' ∉ rest := fun hm => h (List.mem_cons_of_mem c hm)
      rw [List.cons_append, List.cons_append, replaceAll, if_neg]
      · rw [ih hrest]
        rfl
      · intro hand
        have h2 := hand.2
        simp only [List.isPrefixOf, List.cons_append, Bool.and_eq_true, beq_iff_eq] at h2
        exact hc h2.1.symm

/-- str.replace on a stored path stem ++ ".ipynb" replaces exactly the
extension when ".ipynb" occurs nowhere except as that extension. -/
theorem strReplace_extension (stem rep : String)
    (h : ∀ i, i < stem.data.length →
      (['.', 'i', 'p', 'y', 'n', 'b'] : List Char).isPrefixOf
        ((stem.data ++ ['.', 'i', 'p', 'y', 'n', 'b']).drop i) = false) :
    strReplace (stem ++ ".ipynb") ".ipynb" rep = stem ++ rep := by
  apply strExt
  show replaceAll ".ipynb".data rep.data (stem ++ ".ipynb").data = (stem ++ rep).data
  rw [strDataAppend, strDataAppend]
  rw [show ".ipynb".data = ['.', 'i', 'p', 'y', 'n', 'b'] from rfl]
  exact replaceAll_extension rep.data stem.data h

/-- The script export body is the concatenation of its segments. -/
theorem pyCells_eq_concat (i : Nat) (l : List Cell) :
    pyCells i l = concatStrings (pySegs i l) := by
  induction l generalizing i with
  | nil => rfl
  | cons c rest ih => simp [pyCells, pySegs, concatStrings, ih]

/-- One segment per cell. -/
theorem pySegs_length (i : Nat) (l : List Cell) : (pySegs i l).length = l.length := by
  induction l generalizing i with
  | nil => rfl
  | cons c rest ih => simp [pySegs, ih]

/-- The kth segment is the block of the kth cell, numbered from i. -/
theorem pySegs_get (l : List Cell) :
    ∀ (i k : Nat) (hk : k < l.length) (hk2 : k < (pySegs i l).length),
      (pySegs i l).get ⟨k, hk2⟩ = pyCellBlock (i + k) (l.get ⟨k, hk⟩) := by
  induction l with
  | nil =>
      intro i k hk hk2
      exact absurd hk (by simp)
  | cons c rest ih =>
      intro i k hk hk2
      cases k with
      | zero => simp [pySegs]
      | succ k2 =>
          have h1 : k2 < rest.length := by simpa using hk
          have h2 : k2 < (pySegs (i + 1) rest).length := by
            simpa [pySegs] using hk2
          show (pySegs (i + 1) rest).get ⟨k2, h2⟩
            = pyCellBlock (i + (k2 + 1)) (rest.get ⟨k2, h1⟩)
          rw [ih (i + 1) k2 h1 h2, show i + 1 + k2 = i + (k2 + 1) from by omega]

/-- The HTML cell sections split around any chosen cell. -/
theorem htmlCells_append (c : Cell) (l1 : List Cell) :
    ∀ (l2 : List Cell) (i : Nat),
      htmlCells i (l1 ++ c :: l2)
        = htmlCells i l1 ++ (htmlCellSection (i + l1.length) c
            ++ htmlCells (i + l1.length + 1) l2) := by
  induction l1 with
  | nil =>
      intro l2 i
      simp only [List.nil_append, htmlCells, List.length_nil, Nat.add_zero]
      rw [strEmptyAppend]
  | cons d rest ih =>
      intro l2 i
      show htmlCellSection i d ++ htmlCells (i + 1) (rest ++ c :: l2)
          = (htmlCellSection i d ++ htmlCells (i + 1) rest)
            ++ (htmlCellSection (i + (rest.length + 1)) c
              ++ htmlCells (i + (rest.length + 1) + 1) l2)
      rw [ih l2 (i + 1)]
      rw [strAppend_assoc (htmlCellSection i d) (htmlCells (i + 1) rest)]
      rw [show i + 1 + rest.length = i + (rest.length + 1) from by omega]

/-- Claim C5 (amended): export writes to the stored path with every
".ipynb" occurrence replaced, which is the extension-replaced path
exactly when ".ipynb" occurs in the stored path only as its final
extension (the hypothesis below; notebooks whose name itself contains
".ipynb" violate it and are the counterexample).  On such paths,
format "py" writes to stem ++ ".py" a file whose body is, after the
script header, one segment per cell in sequence order, each segment the
numbered comment header "# Cell i" followed by that cell's code; and
format "html" writes to stem ++ ".html" a file that contains, for each
cell in order, both the cell's code and its captured output. -/
theorem c5_export_py_and_html (nid : String) (nb : Notebook) (s : Store) (stem : String)
    (h : storeLookup s nid = some nb) (hpath : nb.path = stem ++ ".ipynb")
    (hstem : ∀ i, i < stem.data.length →
      (['.', 'i', 'p', 'y', 'n', 'b'] : List Char).isPrefixOf
        ((stem.data ++ ['.', 'i', 'p', 'y', 'n', 'b']).drop i) = false) :
    (export_notebook nid "py" WriteOutcome.ok s).written
      = some (stem ++ ".py", pyContent nb) ∧
    (∃ segs : List String,
      pyContent nb = pyHeader nb.name ++ concatStrings segs ∧
      segs.length = nb.cells.length ∧
      ∀ k (hk : k < nb.cells.length) (hk2 : k < segs.length),
        segs.get ⟨k, hk2⟩
          = "# Cell " ++ toString (k + 1) ++ "\n" ++ (nb.cells.get ⟨k, hk⟩).code ++ "\n\n") ∧
    (export_notebook nid "html" WriteOutcome.ok s).written
      = some (stem ++ ".html", htmlContent nb) ∧
    (∀ c ∈ nb.cells, ∃ p m q : String,
      htmlContent nb = p ++ c.code ++ m ++ c.output ++ q) := by
  refine ⟨?_, ?_, ?_, ?_⟩
  · simp [export_notebook, h, hpath, strReplace_extension stem ".py" hstem]
  · refine ⟨pySegs 1 nb.cells, ?_, pySegs_length 1 nb.cells, ?_⟩
    · show pyHeader nb.name ++ pyCells 1 nb.cells
        = pyHeader nb.name ++ concatStrings (pySegs 1 nb.cells)
      rw [pyCells_eq_concat]
    · intro k hk hk2
      rw [pySegs_get nb.cells 1 k hk hk2,
        show (1 + k) = k + 1 from Nat.add_comm 1 k]
      rfl
  · simp [export_notebook, h, hpath, strReplace_extension stem ".html" hstem]
  · intro c hc
    obtain ⟨l1, l2, hsplit⟩ := List.append_of_mem hc
    refine ⟨htmlHeader nb.name ++ htmlCells 1 l1
        ++ ("\n    <div class=\"cell\">\n        <h3>Cell " ++ toString (1 + l1.length)
            ++ "</h3>\n        <div class=\"code\"><pre>"),
      "</pre></div>\n        <div class=\"output\"><pre>",
      "</pre></div>\n    </div>\n" ++ htmlCells (1 + l1.length + 1) l2 ++ "</body></html>", ?_⟩
    show htmlHeader nb.name ++ htmlCells 1 nb.cells ++ "</body></html>" = _
    rw [hsplit, htmlCells_append c l1 l2 1]
    simp only [htmlCellSection]
    simp only [strAppend_assoc]

/-- Witness for C5 at the concrete notebook of the round-trip example:
one cell ("print(1)", "Output:\n1\n"), stored under a path whose
directory contains a period but whose only ".ipynb" occurrence is the
final extension. -/
theorem c5_export_py_and_html_witness :
    (storeLookup
        [("id1", ⟨"demo", "/home/user.name/demo.ipynb", [⟨"print(1)", "Output:\n1\n", 1⟩]⟩)]
        "id1"
        = some ⟨"demo", "/home/user.name/demo.ipynb", [⟨"print(1)", "Output:\n1\n", 1⟩]⟩ ∧
     ("/home/user.name/demo.ipynb" : String) = "/home/user.name/demo" ++ ".ipynb" ∧
     (∀ i, i < ("/home/user.name/demo" : String).data.length →
       (['.', 'i', 'p', 'y', 'n', 'b'] : List Char).isPrefixOf
         ((("/home/user.name/demo" : String).data ++ ['.', 'i', 'p', 'y', 'n', 'b']).drop i)
         = false)) ∧
    ((export_notebook "id1" "py" WriteOutcome.ok
        [("id1", ⟨"demo", "/home/user.name/demo.ipynb", [⟨"print(1)", "Output:\n1\n", 1⟩]⟩)]).written
      = some ("/home/user.name/demo" ++ ".py",
          pyContent ⟨"demo", "/home/user.name/demo.ipynb", [⟨"print(1)", "Output:\n1\n", 1⟩]⟩) ∧
     (∃ segs : List String,
       pyContent ⟨"demo", "/home/user.name/demo.ipynb", [⟨"print(1)", "Output:\n1\n", 1⟩]⟩
         = pyHeader "demo" ++ concatStrings segs ∧
       segs.length = ([⟨"print(1)", "Output:\n1\n", 1⟩] : List Cell).length ∧
       ∀ k (hk : k < ([⟨"print(1)", "Output:\n1\n", 1⟩] : List Cell).length)
         (hk2 : k < segs.length),
         segs.get ⟨k, hk2⟩
           = "# Cell " ++ toString (k + 1) ++ "\n"
             ++ (([⟨"print(1)", "Output:\n1\n", 1⟩] : List Cell).get ⟨k, hk⟩).code ++ "\n\n") ∧
     (export_notebook "id1" "html" WriteOutcome.ok
        [("id1", ⟨"demo", "/home/user.name/demo.ipynb", [⟨"print(1)", "Output:\n1\n", 1⟩]⟩)]).written
      = some ("/home/user.name/demo" ++ ".html",
          htmlContent ⟨"demo", "/home/user.name/demo.ipynb", [⟨"print(1)", "Output:\n1\n", 1⟩]⟩) ∧
     (∀ c ∈ ([⟨"print(1)", "Output:\n1\n", 1⟩] : List Cell), ∃ p m q : String,
       htmlContent ⟨"demo", "/home/user.name/demo.ipynb", [⟨"print(1)", "Output:\n1\n", 1⟩]⟩
         = p ++ c.code ++ m ++ c.output ++ q)) :=
  ⟨⟨rfl, by decide, by decide⟩,
   c5_export_py_and_html "id1"
     ⟨"demo", "/home/user.name/demo.ipynb", [⟨"print(1)", "Output:\n1\n", 1⟩]⟩
     [("id1", ⟨"demo", "/home/user.name/demo.ipynb", [⟨"print(1)", "Output:\n1\n", 1⟩]⟩)]
     "/home/user.name/demo" rfl (by decide) (by decide)⟩

/-- Claim C5 counterexample: create_notebook with name "a.ipynb" stores
the reachable path "/tmp/a.ipynb.ipynb"; exporting that notebook with
format "py" writes to "/tmp/a.py.py" — Python str.replace at
main.py:262 replaces both ".ipynb" occurrences — which is not the
extension-replaced path "/tmp/a.ipynb" ++ ".py". -/
theorem c5_export_replace_all_path_cex :
    (create_notebook "a.ipynb" none "idA" WriteOutcome.ok []).store
      = [("idA", ⟨"a.ipynb", "/tmp/a.ipynb.ipynb", []⟩)] ∧
    (export_notebook "idA" "py" WriteOutcome.ok
        [("idA", ⟨"a.ipynb", "/tmp/a.ipynb.ipynb", []⟩)]).written
      = some ("/tmp/a.py.py", pyContent ⟨"a.ipynb", "/tmp/a.ipynb.ipynb", []⟩) ∧
    ("/tmp/a.py.py" : String) ≠ "/tmp/a.ipynb" ++ ".py" := by
  have h0 : replaceAll ['.', 'i', 'p', 'y', 'n', 'b'] ".py".data [] = [] := by
    rw [replaceAll]
  have h2 : replaceAll ['.', 'i', 'p', 'y', 'n', 'b'] ".py".data ['.', 'i', 'p', 'y', 'n', 'b']
      = ".py".data := by
    have h3 := replaceAll_ipynb_then ".py".data [] [] (by simp)
    simp only [List.nil_append, List.append_nil] at h3
    rw [h0] at h3
    simpa using h3
  have h1 : strReplace "/tmp/a.ipynb.ipynb" ".ipynb" ".py" = "/tmp/a.py.py" := by
    apply strExt
    show replaceAll ".ipynb".data ".py".data "/tmp/a.ipynb.ipynb".data = "/tmp/a.py.py".data
    rw [show ".ipynb".data = ['.', 'i', 'p', 'y', 'n', 'b'] from rfl]
    rw [show "/tmp/a.ipynb.ipynb".data
        = "/tmp/a".data ++ ['.', 'i', 'p', 'y', 'n', 'b'] ++ ['.', 'i', 'p', 'y', 'n', 'b']
        from rfl]
    rw [replaceAll_ipynb_then ".py".data ['.', 'i', 'p', 'y', 'n', 'b'] "/tmp/a".data
      (by decide)]
    rw [h2]
    decide
  refine ⟨by decide, ?_, by decide⟩
  have hl : storeLookup [("idA", ⟨"a.ipynb", "/tmp/a.ipynb.ipynb", []⟩)] "idA"
      = some ⟨"a.ipynb", "/tmp/a.ipynb.ipynb", []⟩ := rfl
  simp [export_notebook, hl, h1]
